import Mathlib

/-
  Shallow embedding of mailcraft's dungeon generator (src/gen.py).

  The generator walks a list of mail threads and issues placement
  operations against a chunked voxel world.  We model the run at two
  levels:
  * an event-trace model of `main` (threadStep / runThreads / mainRun)
    recording every placement, exit-wiring, hazard and RNG operation;
  * a block-level model of the chunk-mutating primitives (roomCopy,
    setExits, theFloorIsLava, noFloor, floorPuzzle, makePillar,
    deepCopy, wipeChunk) as functions on a Chunk state.

  Python's global `random` module is modelled as a state (seed, pos):
  `random.seed(s)` resets the position to 0, every draw advances the
  position by one.  The concrete values of the Mersenne-Twister stream
  are abstracted by a parameter `g : PySeed -> Nat -> Nat` giving the
  raw draw at each position after a given seed.  `random.random()` is
  only ever used as a later seed, so its value is modelled as the
  opaque token `PySeed.draw seed pos` identifying the draw.
-/

namespace Mailcraft

/-- Seeds ever passed to Python's random.seed: the interpreter's own
startup seed, a string (a sender address), or the value of a previous
random.random() draw (identified by the stream state it was drawn at). -/
inductive PySeed where
  | sys : PySeed
  | str : String → PySeed
  | draw : PySeed → Nat → PySeed
deriving DecidableEq, Repr

/-- State of Python's global random module: last seed and the number of
draws made since seeding. -/
abbrev RandState := PySeed × Nat

/-- Abstract raw generator: value of the stream at position p after
seeding with s. -/
abbrev Gen := PySeed → Nat → Nat

/-- random.seed(s): reset the stream. -/
def pySeedFn (s : PySeed) (_ : RandState) : RandState := (s, 0)

/-- random.randint(lo, hi): inclusive-range draw, advances one position. -/
def pyRandint (g : Gen) (lo hi : Nat) (rng : RandState) : Nat × RandState :=
  (lo + g rng.1 rng.2 % (hi + 1 - lo), (rng.1, rng.2 + 1))

/-- random.random(): the drawn float is only ever used as a seed, so it
is modelled as the opaque token of this draw. -/
def pyRandom (rng : RandState) : PySeed × RandState :=
  (PySeed.draw rng.1 rng.2, (rng.1, rng.2 + 1))

/-- Advance the stream by n draws without recording their values. -/
def advanceDraws (rng : RandState) (n : Nat) : RandState :=
  (rng.1, rng.2 + n)

/-- HEIGHT_INC = 8 (gen.py line 24): the fixed floor unit. -/
def HEIGHT_INC : Nat := 8

/-- STONE_BRICK = 98 (gen.py line 25); alphaMaterials.StoneBricks.ID. -/
def STONE_BRICK : Nat := 98

/-- alphaMaterials.Cobblestone.ID. -/
def COBBLESTONE : Nat := 4

/-- alphaMaterials.Lava.ID (block id 10, the same literal used at
gen.py line 122). -/
def LAVA_ID : Nat := 10

/-- difficulty = [1, 2, 3, 4, 5, 7] (gen.py line 26). -/
def difficulty : List Int := [1, 2, 3, 4, 5, 7]

/-- length = [7, 12, 20, 30, -1] (gen.py line 27). -/
def length : List Int := [7, 12, 20, 30, -1]

/-- difficulty_setting = difficulty[3] (gen.py line 164). -/
def difficulty_setting : Int := difficulty.getD 3 0

/-- length_setting = length[2] (gen.py line 165). -/
def length_setting : Int := length.getD 2 0

/-- diffInterval = int(length_setting / difficulty_setting)
(gen.py line 232); python2 integer division is floor division. -/
def diffInterval : Int := Int.fdiv length_setting difficulty_setting

/-- The band-boundary test of gen.py line 233:
`i % diffInterval == 0 and i != 0 and i != length_setting`.
Python raises ZeroDivisionError when the interval is 0; the fallible
evaluation is modelled by Option, `none` being the raise. -/
def bandTest (i : Nat) (interval limit : Int) : Option Bool :=
  if interval = 0 then none
  else some ((((i : Int) % interval == 0)) && (i != 0) && ((i : Int) != limit))

/-- A mail message as consumed by main: subject and sender strings
(gen.py lines 224-225 read thread[0]['subject'] / thread[0]['from']). -/
structure Msg where
  subject : String
  fro : String
deriving DecidableEq, Repr

/-- The named room templates of the rooms dict (gen.py lines 171-181). -/
inductive Tmpl where
  | start | v_tunnel | basic | basic2 | stairs | h_tunnel
  | treasure | gaudy | endRoom
deriving DecidableEq, Repr

/-- room_sel = [rooms["basic"], rooms["basic2"]] (gen.py line 184). -/
def room_sel : List Tmpl := [Tmpl.basic, Tmpl.basic2]

/-- Placement / mutation events issued by main against the world. -/
inductive Ev where
  | mkChunk (col row : Nat)
  | deep (col row : Nat) (t : Tmpl)
  | stamp (col row : Nat) (t : Tmpl) (h : Nat)
  | sign (i : Nat) (subject fro : String)
  | seedCall (s : PySeed)
  | pillar (col row : Nat)
  | exits (col row : Nat) (h : Nat) (w e n s : Int)
  | lava (col row : Nat) (h : Nat)
  | nofloor (col row : Nat) (h : Nat)
  | puzzle (col row : Nat) (h : Nat) (danger : Nat) (diff : Nat)
deriving DecidableEq, Repr

/-- Mutable cursor state of main: row_num, col_num, height, and the
global random stream. -/
structure St where
  row : Nat
  col : Nat
  height : Nat
  rng : RandState
deriving DecidableEq, Repr

/-- placeNextRoom (gen.py lines 57-66): reseed the global stream from
`seed`, draw the template index (randint over room_sel's indices),
stamp the room, then draw the pillar decision (randint(0,10) == 0).
The trace version records the seeding, the stamp and the pillar. -/
def placeNextRoom (g : Gen) (seed : PySeed) (col row h : Nat)
    (rng : RandState) : RandState × List Ev :=
  let rng0 := pySeedFn seed rng
  let iDraw := pyRandint g 0 1 rng0
  let jDraw := pyRandint g 0 10 iDraw.2
  (jDraw.2,
    [Ev.seedCall seed, Ev.stamp col row (room_sel.getD iDraw.1 Tmpl.basic) h]
      ++ (if jDraw.1 = 0 then [Ev.pillar col row] else []))

/-- Seed derivation of gen.py lines 221-245: fro is thread[0]['from']
truncated to 15 characters (empty for an empty thread); the seed is
that string when non-empty, else a fresh random.random() draw. -/
def threadSeed (thread : List Msg) (rng : RandState) : PySeed × RandState :=
  match thread with
  | [] => pyRandom rng
  | m :: _ =>
    let fro := m.fro.take 15
    if fro.length ≠ 0 then (PySeed.str fro, rng) else pyRandom rng

/-- One iteration of the branch loop body (gen.py lines 257-270):
h_tunnel at the cursor, seeded room one column east with west/east
open and north/south walled, hazard floor keyed to height < 24, then
the floor puzzle (which consumes 12*14 = 168 draws). -/
def branchCell (g : Gen) (seed : PySeed) (col row h : Nat)
    (rng : RandState) : RandState × List Ev :=
  let pr := placeNextRoom g seed (col + 1) row h rng
  (advanceDraws pr.1 168,
    [Ev.mkChunk col row, Ev.stamp col row Tmpl.h_tunnel h]
      ++ pr.2
      ++ [Ev.exits (col + 1) row h 1 1 0 0]
      ++ (if h < 24 then [Ev.lava (col + 1) row h]
          else [Ev.nofloor (col + 1) row h])
      ++ [Ev.puzzle (col + 1) row h (if h < 24 then 10 else 0)
            (h / HEIGHT_INC + 1)])

/-- The branch loop of gen.py lines 254-270: one branchCell per message
beyond the first (the loop body ignores the message's content), the
cursor advancing two columns per iteration. The accumulator carries
(col_num, random stream). -/
def branchLoop (g : Gen) (seed : PySeed) (row h : Nat) :
    List Msg → Nat × RandState → (Nat × RandState) × List Ev
  | [], acc => (acc, [])
  | _ :: rest, acc =>
    let cell := branchCell g seed acc.1 row h acc.2
    let more := branchLoop g seed row h rest (acc.1 + 2, cell.1)
    (more.1, cell.2 ++ more.2)

/-- One iteration of the thread loop (gen.py lines 200-289): spine
tunnel + sign, band-boundary staircase (height increment) or vertical
tunnel, seeded entry room, east exit opened when the thread has more
than one message, the branch loop, the terminal treatment keyed to how
far the cursor advanced past the branch origin, and on odd thread
indices the hazard treatment of the cell at (0, branch row). -/
def threadStep (g : Gen) (i : Nat) (thread : List Msg) (st : St) :
    St × List Ev :=
  let subject := match thread with | [] => "Draft" | m :: _ => m.subject.take 15
  let froStr := match thread with | [] => "" | m :: _ => m.fro.take 15
  let bandHit := bandTest i diffInterval length_setting == some true
  let h2 := if bandHit then st.height + HEIGHT_INC else st.height
  let row2 := st.row + 1
  let sd := (threadSeed thread st.rng).1
  let entry := placeNextRoom g sd st.col row2 h2 (threadSeed thread st.rng).2
  let bl := branchLoop g sd row2 h2 (thread.drop 1) (st.col + 1, entry.1)
  let colF := bl.1.1
  let evTerm :=
    if colF - st.col < 5 then [Ev.exits (colF - 1) row2 h2 (-1) 0 (-1) (-1)]
    else if colF - st.col < 8 then [Ev.stamp colF row2 Tmpl.treasure h2]
    else [Ev.stamp colF row2 Tmpl.gaudy h2]
  let oddHaz :=
    if i % 2 = 1 then
      (if h2 < 16 then [Ev.lava 0 row2 h2] else [Ev.nofloor 0 row2 h2])
        ++ [Ev.puzzle 0 row2 h2 (if h2 < 16 then LAVA_ID else 0)
              (h2 / HEIGHT_INC + 1)]
    else []
  let rngF := if i % 2 = 1 then advanceDraws bl.1.2 168 else bl.1.2
  (⟨row2 + 1, st.col, h2, rngF⟩,
    [Ev.mkChunk 0 st.row, Ev.stamp 0 st.row Tmpl.v_tunnel st.height,
     Ev.sign i subject froStr,
     Ev.stamp 0 st.row (if bandHit then Tmpl.stairs else Tmpl.v_tunnel)
       st.height]
      ++ entry.2
      ++ (if thread.length > 1
          then [Ev.exits st.col row2 h2 (-1) 1 (-1) (-1)] else [])
      ++ bl.2
      ++ [Ev.mkChunk colF row2]
      ++ evTerm
      ++ oddHaz)

/-- The thread loop: fold threadStep over the processed threads,
carrying the loop index. -/
def runThreads (g : Gen) : Nat → List (List Msg) → St → St × List Ev
  | _, [], st => (st, [])
  | i, t :: rest, st =>
    let s1 := threadStep g i t st
    let s2 := runThreads g (i + 1) rest s1.1
    (s2.1, s1.2 ++ s2.2)

/-- main (gen.py lines 163-298): start room, the thread loop over the
first length_setting threads (`break` at i == length_setting; a
negative setting never triggers the break), then a final forced
staircase (with height increment) and the end room. -/
def mainRun (g : Gen) (maildata : List (List Msg)) : St × List Ev :=
  let st1 : St := ⟨1, 0, 0, (PySeed.sys, 0)⟩
  let processed :=
    if length_setting < 0 then maildata
    else maildata.take length_setting.toNat
  let out := runThreads g 0 processed st1
  let st2 := out.1
  (⟨st2.row + 2, st2.col, st2.height + HEIGHT_INC, st2.rng⟩,
    [Ev.mkChunk 0 0, Ev.deep 0 0 Tmpl.start]
      ++ out.2
      ++ [Ev.mkChunk 0 st2.row, Ev.stamp 0 st2.row Tmpl.stairs st2.height,
          Ev.mkChunk st2.col (st2.row + 1),
          Ev.stamp st2.col (st2.row + 1) Tmpl.endRoom
            (st2.height + HEIGHT_INC)])

/-- Event recognizer: a setExits application whose east argument is 0,
i.e. an east doorway being sealed. -/
def isSealEast (e : Ev) : Bool :=
  match e with
  | .exits _ _ _ _ ee _ _ => ee == 0
  | _ => false

/-- Event recognizer: a roomCopy stamp of template t. -/
def isStampOf (t : Tmpl) (e : Ev) : Bool :=
  match e with
  | .stamp _ _ t' _ => t' == t
  | _ => false

/-- Event recognizer: a random.seed call. -/
def isSeedCall (e : Ev) : Bool :=
  match e with
  | .seedCall _ => true
  | _ => false

/-- Event recognizer: a stamp of one of the two generic room templates. -/
def isGenericStamp (e : Ev) : Bool :=
  isStampOf Tmpl.basic e || isStampOf Tmpl.basic2 e

/-- Event recognizer: a hazard-floor or puzzle application at a given
cell. -/
def isHazAt (col row : Nat) (e : Ev) : Bool :=
  match e with
  | .lava c r _ => c == col && r == row
  | .nofloor c r _ => c == col && r == row
  | .puzzle c r _ _ _ => c == col && r == row
  | _ => false

/-- Event recognizer: a theFloorIsLava application at a column other
than 0, i.e. a branch-room lava floor. -/
def isLavaOff0 (e : Ev) : Bool :=
  match e with
  | .lava c _ _ => c != 0
  | _ => false

/-- Event recognizer: a noFloor application at a column other than 0. -/
def isNofloorOff0 (e : Ev) : Bool :=
  match e with
  | .nofloor c _ _ => c != 0
  | _ => false

/-- Event recognizer: a theFloorIsLava application at cell (0, row). -/
def isLavaAt0 (row : Nat) (e : Ev) : Bool :=
  match e with
  | .lava c r _ => c == 0 && r == row
  | _ => false

/-- Event recognizer: a noFloor application at cell (0, row). -/
def isNofloorAt0 (row : Nat) (e : Ev) : Bool :=
  match e with
  | .nofloor c r _ => c == 0 && r == row
  | _ => false

/-- Transition of the east-exit state of one cell under one event: a
stamp over the cell resets the face to the template's own content, a
setExits with east bigger than -1 records the new tri-state. (The
hazard primitives never touch the 2x2 doorway aperture rows, so they
do not appear here.) -/
def eastStep (col row : Nat) (s : Option Int) (e : Ev) : Option Int :=
  match e with
  | .stamp c r _ _ => if c = col ∧ r = row then none else s
  | .exits c r _ _ ee _ _ => if c = col ∧ r = row ∧ ee > -1 then some ee else s
  | _ => s

/-- Final east-exit state of a cell after a trace: none when the face
was never rewired after the last stamp. -/
def eastStateAt (col row : Nat) (tr : List Ev) : Option Int :=
  tr.foldl (eastStep col row) none

/-- Transition of "last template stamped into a cell" under one event. -/
def stampStep (col row : Nat) (s : Option Tmpl) (e : Ev) : Option Tmpl :=
  match e with
  | .stamp c r t _ => if c = col ∧ r = row then some t else s
  | _ => s

/-- The template of the last roomCopy stamp into a cell over a trace. -/
def lastStampAt (col row : Nat) (tr : List Ev) : Option Tmpl :=
  tr.foldl (stampStep col row) none

/-- A concrete raw generator (the stream constantly 0) used for closed
witnesses and counterexamples. -/
def g0 : Gen := fun _ _ => 0

/-- A concrete raw generator (the stream constantly 1). -/
def g1 : Gen := fun _ _ => 1

/-- A concrete message with a short non-empty sender. -/
def mA : Msg := ⟨"subj", "x@y"⟩

/-- A concrete message whose sender is the empty string. -/
def mE : Msg := ⟨"subj", ""⟩

/-- The cursor state right after the start room is placed. -/
def st0 : St := ⟨1, 0, 0, (PySeed.sys, 0)⟩

/-- A cursor state at height 16 (the height band where the two hazard
thresholds disagree). -/
def st16 : St := ⟨1, 0, 16, (PySeed.sys, 0)⟩

/-- Shape of the events a branch loop started at column col0 can emit:
everything sits on the branch row at the branch height, at columns at
least col0, reseeds only from the branch seed, stamps only h_tunnel or
the seed-determined generic template, wires only west/east doors with
north/south walls, and keys the hazard choice to height < 24. -/
def BranchEv (g : Gen) (seed : PySeed) (col0 row h : Nat) (e : Ev) : Prop :=
  e = Ev.seedCall seed
  ∨ (∃ c, col0 ≤ c ∧ e = Ev.mkChunk c row)
  ∨ (∃ c, col0 ≤ c ∧ e = Ev.stamp c row Tmpl.h_tunnel h)
  ∨ (∃ c, col0 ≤ c ∧
      e = Ev.stamp c row (room_sel.getD (g seed 0 % 2) Tmpl.basic) h)
  ∨ (∃ c, col0 ≤ c ∧ e = Ev.pillar c row)
  ∨ (∃ c, col0 ≤ c ∧ e = Ev.exits c row h 1 1 0 0)
  ∨ (∃ c, col0 ≤ c ∧ 1 ≤ c ∧ h < 24 ∧ e = Ev.lava c row h)
  ∨ (∃ c, col0 ≤ c ∧ 1 ≤ c ∧ 24 ≤ h ∧ e = Ev.nofloor c row h)
  ∨ (∃ c, col0 ≤ c ∧
      e = Ev.puzzle c row h (if h < 24 then 10 else 0) (h / HEIGHT_INC + 1))

/-- Block-level model of one world chunk: block id and data value per
(x, z, y) coordinate, plus a count of chunkChanged notifications sent
to the voxel grid service. -/
structure Chunk where
  Blocks : Nat → Nat → Nat → Nat
  Data : Nat → Nat → Nat → Nat
  changed : Nat

/-- wipeChunk (gen.py lines 36-40): zero all blocks and data, notify
once. -/
def wipeChunk (chunk : Chunk) : Chunk :=
  { Blocks := fun _ _ _ => 0
    Data := fun _ _ _ => 0
    changed := chunk.changed + 1 }

/-- roomCopy (gen.py lines 43-47): copy the template's content from
layer 3 up into the target starting at layer 3+h (the vertical extent
silently truncates at the 256-layer bound), notify once. -/
def roomCopy (fro dst : Chunk) (h : Nat) : Chunk :=
  { Blocks := fun x z y =>
      if 3 + h ≤ y ∧ y < 256 then fro.Blocks x z (y - h) else dst.Blocks x z y
    Data := fun x z y =>
      if 3 + h ≤ y ∧ y < 256 then fro.Data x z (y - h) else dst.Data x z y
    changed := dst.changed + 1 }

/-- deepCopy (gen.py lines 50-54): copy the whole volume, notify once. -/
def deepCopy (fro dst : Chunk) : Chunk :=
  { Blocks := fro.Blocks
    Data := fro.Data
    changed := dst.changed + 1 }

/-- setExits (gen.py lines 72-110): per direction -1 = ignore,
0 = wall, 1 = door; a door clears the 2-wide 2-tall aperture and lays
cobblestone at floor level, a wall fills the aperture with stone
brick; chunkChanged is called exactly once, unconditionally, at the
end. -/
def setExits (room : Chunk) (h : Nat) (west east north south : Int) : Chunk :=
  let floor := 3 + h
  let b0 := room.Blocks
  let b1 := fun x z y =>
    if west > -1 then
      if x = 0 ∧ (7 ≤ z ∧ z < 9) ∧ (floor + 1 ≤ y ∧ y < floor + 3) then
        (if west = 1 then 0 else STONE_BRICK)
      else if west = 1 ∧ x = 0 ∧ (7 ≤ z ∧ z < 9) ∧ y = floor then COBBLESTONE
      else b0 x z y
    else b0 x z y
  let b2 := fun x z y =>
    if east > -1 then
      if x = 15 ∧ (7 ≤ z ∧ z < 9) ∧ (floor + 1 ≤ y ∧ y < floor + 3) then
        (if east = 1 then 0 else STONE_BRICK)
      else if east = 1 ∧ x = 15 ∧ (7 ≤ z ∧ z < 9) ∧ y = floor then COBBLESTONE
      else b1 x z y
    else b1 x z y
  let b3 := fun x z y =>
    if north > -1 then
      if (7 ≤ x ∧ x < 9) ∧ z = 0 ∧ (floor + 1 ≤ y ∧ y < floor + 3) then
        (if north = 1 then 0 else STONE_BRICK)
      else if north = 1 ∧ (7 ≤ x ∧ x < 9) ∧ z = 0 ∧ y = floor then COBBLESTONE
      else b2 x z y
    else b2 x z y
  let b4 := fun x z y =>
    if south > -1 then
      if (7 ≤ x ∧ x < 9) ∧ z = 15 ∧ (floor + 1 ≤ y ∧ y < floor + 3) then
        (if south = 1 then 0 else STONE_BRICK)
      else if south = 1 ∧ (7 ≤ x ∧ x < 9) ∧ z = 15 ∧ y = floor then COBBLESTONE
      else b3 x z y
    else b3 x z y
  { room with Blocks := b4, changed := room.changed + 1 }

/-- theFloorIsLava (gen.py lines 120-124): stone-brick retaining area
on layers 2+h and 3+h, lava (block 10) over the interior of layer 3+h,
notify once. -/
def theFloorIsLava (room : Chunk) (h : Nat) : Chunk :=
  let b1 := fun x z y =>
    if 2 + h ≤ y ∧ y < 4 + h then STONE_BRICK else room.Blocks x z y
  let b2 := fun x z y =>
    if (1 ≤ x ∧ x < 15) ∧ (2 ≤ z ∧ z < 14) ∧ y = 3 + h then 10 else b1 x z y
  { room with Blocks := b2, changed := room.changed + 1 }

/-- noFloor (gen.py lines 127-131): stone-brick walls up to layer 4+h,
interior floor removed (air) up to layer 4+h, notify once. -/
def noFloor (room : Chunk) (h : Nat) : Chunk :=
  let b1 := fun x z y =>
    if y < 4 + h then STONE_BRICK else room.Blocks x z y
  let b2 := fun x z y =>
    if (1 ≤ x ∧ x < 15) ∧ (2 ≤ z ∧ z < 14) ∧ y < 4 + h then 0 else b1 x z y
  { room with Blocks := b2, changed := room.changed + 1 }

/-- makePillar (gen.py lines 144-150): four 2x2 stone-brick columns
over the full height, notify once. -/
def makePillar (room : Chunk) : Chunk :=
  let inPillar := fun (x z : Nat) =>
    ((3 ≤ x ∧ x < 5) ∨ (11 ≤ x ∧ x < 13)) ∧ ((3 ≤ z ∧ z < 5) ∨ (11 ≤ z ∧ z < 13))
  { room with
      Blocks := fun x z y => if inPillar x z then STONE_BRICK else room.Blocks x z y
      changed := room.changed + 1 }

/-- A single floor-puzzle tile write: room.Blocks[jx, iz, yh] = v. -/
def puzzleWrite (room : Chunk) (jx iz yh v : Nat) : Chunk :=
  { room with Blocks := fun x z y =>
      if x = jx ∧ z = iz ∧ y = yh then v else room.Blocks x z y }

/-- Inner loop body of floorPuzzle (gen.py lines 136-141): draw
randint(0, diff); write safe stone (1) on a zero draw, the danger
block otherwise, at column 1+j of row 2+i on layer 3+h. -/
def puzzleStep (g : Gen) (h dangerBlock diff i : Nat)
    (acc : Chunk × RandState) (j : Nat) : Chunk × RandState :=
  let k := pyRandint g 0 diff acc.2
  (puzzleWrite acc.1 (1 + j) (2 + i) (3 + h) (if k.1 = 0 then 1 else dangerBlock),
    k.2)

/-- One row of floorPuzzle: the inner loop over j in xrange(1, 15). -/
def puzzleRow (g : Gen) (h dangerBlock diff : Nat)
    (acc : Chunk × RandState) (i : Nat) : Chunk × RandState :=
  (List.range 14).foldl (puzzleStep g h dangerBlock diff i) acc

/-- floorPuzzle (gen.py lines 134-141): for i in xrange(2, 14), for j
in xrange(1, 15), write a safe tile or the danger block on layer 3+h.
Unlike every other mutating primitive it never calls chunkChanged. -/
def floorPuzzle (g : Gen) (room : Chunk) (h dangerBlock diff : Nat)
    (rng : RandState) : Chunk × RandState :=
  (List.range 12).foldl (puzzleRow g h dangerBlock diff) (room, rng)

lemma room_sel_getD (n : Nat) :
    room_sel.getD n Tmpl.basic = Tmpl.basic ∨
      room_sel.getD n Tmpl.basic = Tmpl.basic2 := by
  match n with
  | 0 => left; rfl
  | 1 => right; rfl
  | n + 2 => left; rfl

lemma placeNextRoom_fst (g : Gen) (seed : PySeed) (col row h : Nat)
    (rng : RandState) : (placeNextRoom g seed col row h rng).1 = (seed, 2) := by
  simp [placeNextRoom, pyRandint, pySeedFn]

lemma placeNextRoom_snd (g : Gen) (seed : PySeed) (col row h : Nat)
    (rng : RandState) :
    (placeNextRoom g seed col row h rng).2 =
      [Ev.seedCall seed,
       Ev.stamp col row (room_sel.getD (g seed 0 % 2) Tmpl.basic) h]
        ++ (if g seed 1 % 11 = 0 then [Ev.pillar col row] else []) := by
  simp [placeNextRoom, pyRandint, pySeedFn]

lemma branchCell_fst (g : Gen) (seed : PySeed) (col row h : Nat)
    (rng : RandState) : (branchCell g seed col row h rng).1 = (seed, 170) := by
  simp [branchCell, placeNextRoom_fst, advanceDraws]

lemma branchCell_countP_seal (g : Gen) (seed : PySeed) (col row h : Nat)
    (rng : RandState) :
    ((branchCell g seed col row h rng).2.countP isSealEast) = 0 := by
  simp only [branchCell, placeNextRoom_snd]
  rcases room_sel_getD (g seed 0 % 2) with hg | hg <;> rw [hg] <;>
    split_ifs <;>
      simp [beq_iff_eq, isSealEast, List.countP_append, List.countP_cons]

lemma branchCell_countP_stamp (g : Gen) (seed : PySeed) (col row h : Nat)
    (rng : RandState) (t : Tmpl) (hb : t ≠ Tmpl.basic) (hb2 : t ≠ Tmpl.basic2)
    (hh : t ≠ Tmpl.h_tunnel) :
    ((branchCell g seed col row h rng).2.countP (isStampOf t)) = 0 := by
  simp only [branchCell, placeNextRoom_snd]
  rcases room_sel_getD (g seed 0 % 2) with hg | hg <;> rw [hg] <;>
    split_ifs <;>
      simp [beq_iff_eq, isStampOf, List.countP_append, List.countP_cons,
        Ne.symm hb, Ne.symm hb2, Ne.symm hh]

lemma branchCell_countP_htunnel (g : Gen) (seed : PySeed) (col row h : Nat)
    (rng : RandState) :
    ((branchCell g seed col row h rng).2.countP (isStampOf Tmpl.h_tunnel)) = 1 := by
  simp only [branchCell, placeNextRoom_snd]
  rcases room_sel_getD (g seed 0 % 2) with hg | hg <;> rw [hg] <;>
    split_ifs <;>
      simp [beq_iff_eq, isStampOf, List.countP_append, List.countP_cons]

lemma branchCell_countP_seed (g : Gen) (seed : PySeed) (col row h : Nat)
    (rng : RandState) :
    ((branchCell g seed col row h rng).2.countP isSeedCall) = 1 := by
  simp only [branchCell, placeNextRoom_snd]
  rcases room_sel_getD (g seed 0 % 2) with hg | hg <;> rw [hg] <;>
    split_ifs <;>
      simp [beq_iff_eq, isSeedCall, List.countP_append, List.countP_cons]

lemma branchCell_countP_generic (g : Gen) (seed : PySeed) (col row h : Nat)
    (rng : RandState) :
    ((branchCell g seed col row h rng).2.countP isGenericStamp) = 1 := by
  simp only [branchCell, placeNextRoom_snd]
  rcases room_sel_getD (g seed 0 % 2) with hg | hg <;> rw [hg] <;>
    split_ifs <;>
      simp [beq_iff_eq, isGenericStamp, isStampOf, List.countP_append, List.countP_cons]

lemma branchCell_countP_hazAt0 (g : Gen) (seed : PySeed) (col row h : Nat)
    (rng : RandState) (r' : Nat) :
    ((branchCell g seed col row h rng).2.countP (isHazAt 0 r')) = 0 := by
  simp only [branchCell, placeNextRoom_snd]
  rcases room_sel_getD (g seed 0 % 2) with hg | hg <;> rw [hg] <;>
    split_ifs <;>
      simp [beq_iff_eq, isHazAt, List.countP_append, List.countP_cons]

lemma branchCell_mem (g : Gen) (seed : PySeed) (col row h : Nat)
    (rng : RandState) (e : Ev) (he : e ∈ (branchCell g seed col row h rng).2) :
    BranchEv g seed col row h e := by
  unfold BranchEv
  simp only [branchCell, placeNextRoom_snd, List.append_assoc, List.mem_append,
    List.mem_cons, List.mem_singleton, List.not_mem_nil, or_false] at he
  rcases he with (he | he) | (he | he) | hp | he | hz | he
  · exact Or.inr (Or.inl ⟨col, le_refl col, he⟩)
  · exact Or.inr (Or.inr (Or.inl ⟨col, le_refl col, he⟩))
  · exact Or.inl he
  · exact Or.inr (Or.inr (Or.inr (Or.inl ⟨col + 1, Nat.le_succ col, he⟩)))
  · by_cases hj : g seed 1 % 11 = 0
    · rw [if_pos hj, List.mem_singleton] at hp
      exact Or.inr (Or.inr (Or.inr (Or.inr (Or.inl
        ⟨col + 1, Nat.le_succ col, hp⟩))))
    · rw [if_neg hj] at hp
      exact absurd hp (List.not_mem_nil e)
  · exact Or.inr (Or.inr (Or.inr (Or.inr (Or.inr (Or.inl
      ⟨col + 1, Nat.le_succ col, he⟩)))))
  · by_cases h24 : h < 24
    · rw [if_pos h24, List.mem_singleton] at hz
      exact Or.inr (Or.inr (Or.inr (Or.inr (Or.inr (Or.inr (Or.inl
        ⟨col + 1, Nat.le_succ col, Nat.succ_le_succ (Nat.zero_le col), h24, hz⟩))))))
    · rw [if_neg h24, List.mem_singleton] at hz
      exact Or.inr (Or.inr (Or.inr (Or.inr (Or.inr (Or.inr (Or.inr (Or.inl
        ⟨col + 1, Nat.le_succ col, Nat.succ_le_succ (Nat.zero_le col),
          Nat.le_of_not_lt h24, hz⟩)))))))
  · exact Or.inr (Or.inr (Or.inr (Or.inr (Or.inr (Or.inr (Or.inr (Or.inr
      ⟨col + 1, Nat.le_succ col, he⟩)))))))

lemma BranchEv_mono (g : Gen) (seed : PySeed) (col0 col1 row h : Nat)
    (hc : col0 ≤ col1) (e : Ev) (he : BranchEv g seed col1 row h e) :
    BranchEv g seed col0 row h e := by
  rcases he with he | ⟨c, hcc, he⟩ | ⟨c, hcc, he⟩ | ⟨c, hcc, he⟩ | ⟨c, hcc, he⟩
    | ⟨c, hcc, he⟩ | ⟨c, hcc, h1, h24, he⟩ | ⟨c, hcc, h1, h24, he⟩ | ⟨c, hcc, he⟩
  · exact Or.inl he
  · exact Or.inr (Or.inl ⟨c, le_trans hc hcc, he⟩)
  · exact Or.inr (Or.inr (Or.inl ⟨c, le_trans hc hcc, he⟩))
  · exact Or.inr (Or.inr (Or.inr (Or.inl ⟨c, le_trans hc hcc, he⟩)))
  · exact Or.inr (Or.inr (Or.inr (Or.inr (Or.inl ⟨c, le_trans hc hcc, he⟩))))
  · exact Or.inr (Or.inr (Or.inr (Or.inr (Or.inr (Or.inl
      ⟨c, le_trans hc hcc, he⟩)))))
  · exact Or.inr (Or.inr (Or.inr (Or.inr (Or.inr (Or.inr (Or.inl
      ⟨c, le_trans hc hcc, h1, h24, he⟩))))))
  · exact Or.inr (Or.inr (Or.inr (Or.inr (Or.inr (Or.inr (Or.inr (Or.inl
      ⟨c, le_trans hc hcc, h1, h24, he⟩)))))))
  · exact Or.inr (Or.inr (Or.inr (Or.inr (Or.inr (Or.inr (Or.inr (Or.inr
      ⟨c, le_trans hc hcc, he⟩)))))))

lemma branchLoop_col (g : Gen) (seed : PySeed) (row h : Nat)
    (msgs : List Msg) : ∀ (col : Nat) (rng : RandState),
    (branchLoop g seed row h msgs (col, rng)).1.1 = col + 2 * msgs.length := by
  induction msgs with
  | nil => intro col rng; simp [branchLoop]
  | cons m rest ih =>
    intro col rng
    simp only [branchLoop, List.length_cons]
    rw [ih]
    ring

lemma branchLoop_countP_seal (g : Gen) (seed : PySeed) (row h : Nat)
    (msgs : List Msg) : ∀ (col : Nat) (rng : RandState),
    ((branchLoop g seed row h msgs (col, rng)).2.countP isSealEast) = 0 := by
  induction msgs with
  | nil => intro col rng; simp [branchLoop]
  | cons m rest ih =>
    intro col rng
    simp only [branchLoop, List.countP_append]
    rw [branchCell_countP_seal, ih]

lemma branchLoop_countP_stamp (g : Gen) (seed : PySeed) (row h : Nat)
    (msgs : List Msg) (t : Tmpl) (hb : t ≠ Tmpl.basic) (hb2 : t ≠ Tmpl.basic2)
    (hh : t ≠ Tmpl.h_tunnel) : ∀ (col : Nat) (rng : RandState),
    ((branchLoop g seed row h msgs (col, rng)).2.countP (isStampOf t)) = 0 := by
  induction msgs with
  | nil => intro col rng; simp [branchLoop]
  | cons m rest ih =>
    intro col rng
    simp only [branchLoop, List.countP_append]
    rw [branchCell_countP_stamp g seed col row h rng t hb hb2 hh, ih]

lemma branchLoop_countP_htunnel (g : Gen) (seed : PySeed) (row h : Nat)
    (msgs : List Msg) : ∀ (col : Nat) (rng : RandState),
    ((branchLoop g seed row h msgs (col, rng)).2.countP (isStampOf Tmpl.h_tunnel))
      = msgs.length := by
  induction msgs with
  | nil => intro col rng; simp [branchLoop]
  | cons m rest ih =>
    intro col rng
    simp only [branchLoop, List.countP_append, List.length_cons]
    rw [branchCell_countP_htunnel, ih]
    ring

lemma branchLoop_countP_seed (g : Gen) (seed : PySeed) (row h : Nat)
    (msgs : List Msg) : ∀ (col : Nat) (rng : RandState),
    ((branchLoop g seed row h msgs (col, rng)).2.countP isSeedCall)
      = msgs.length := by
  induction msgs with
  | nil => intro col rng; simp [branchLoop]
  | cons m rest ih =>
    intro col rng
    simp only [branchLoop, List.countP_append, List.length_cons]
    rw [branchCell_countP_seed, ih]
    ring

lemma branchLoop_countP_generic (g : Gen) (seed : PySeed) (row h : Nat)
    (msgs : List Msg) : ∀ (col : Nat) (rng : RandState),
    ((branchLoop g seed row h msgs (col, rng)).2.countP isGenericStamp)
      = msgs.length := by
  induction msgs with
  | nil => intro col rng; simp [branchLoop]
  | cons m rest ih =>
    intro col rng
    simp only [branchLoop, List.countP_append, List.length_cons]
    rw [branchCell_countP_generic, ih]
    ring

lemma branchLoop_countP_hazAt0 (g : Gen) (seed : PySeed) (row h : Nat)
    (msgs : List Msg) (r' : Nat) : ∀ (col : Nat) (rng : RandState),
    ((branchLoop g seed row h msgs (col, rng)).2.countP (isHazAt 0 r')) = 0 := by
  induction msgs with
  | nil => intro col rng; simp [branchLoop]
  | cons m rest ih =>
    intro col rng
    simp only [branchLoop, List.countP_append]
    rw [branchCell_countP_hazAt0, ih]

lemma branchLoop_mem (g : Gen) (seed : PySeed) (row h : Nat)
    (msgs : List Msg) : ∀ (col : Nat) (rng : RandState) (e : Ev),
    e ∈ (branchLoop g seed row h msgs (col, rng)).2 →
      BranchEv g seed col row h e := by
  induction msgs with
  | nil => intro col rng e he; simp [branchLoop] at he
  | cons m rest ih =>
    intro col rng e he
    simp only [branchLoop, List.mem_append] at he
    rcases he with he | he
    · exact branchCell_mem g seed col row h rng e he
    · exact BranchEv_mono g seed col (col + 2) row h (Nat.le_add_right col 2) e
        (ih (col + 2) _ e he)

lemma drop_len (thread : List Msg) (c : Nat) :
    c + 1 + 2 * ((List.drop 1 thread).length) - c = 1 + 2 * (thread.length - 1) := by
  rw [List.length_drop]
  omega

set_option maxHeartbeats 1000000 in
lemma threadStep_count_seal (g : Gen) (i : Nat) (thread : List Msg) (st : St) :
    ((threadStep g i thread st).2.countP isSealEast)
      = if 1 + 2 * (thread.length - 1) < 5 then 1 else 0 := by
  simp only [threadStep]
  rw [branchLoop_col, placeNextRoom_snd, drop_len]
  simp only [List.countP_append, List.countP_cons, List.countP_nil,
    branchLoop_countP_seal, apply_ite (List.countP isSealEast), isSealEast]
  simp

set_option maxHeartbeats 1000000 in
lemma threadStep_count_treasure (g : Gen) (i : Nat) (thread : List Msg) (st : St) :
    ((threadStep g i thread st).2.countP (isStampOf Tmpl.treasure))
      = if 1 + 2 * (thread.length - 1) < 5 then 0
        else if 1 + 2 * (thread.length - 1) < 8 then 1 else 0 := by
  simp only [threadStep]
  rw [branchLoop_col, placeNextRoom_snd, drop_len]
  rcases room_sel_getD (g (threadSeed thread st.rng).1 0 % 2) with hg | hg <;>
    rw [hg] <;>
      simp only [List.countP_append, List.countP_cons, List.countP_nil,
        branchLoop_countP_stamp g (threadSeed thread st.rng).1 (st.row + 1) _
          (thread.drop 1) Tmpl.treasure (by simp) (by simp) (by simp),
        apply_ite (List.countP (isStampOf Tmpl.treasure)), isStampOf] <;>
      simp <;>
      split_ifs <;> simp

set_option maxHeartbeats 1000000 in
lemma threadStep_count_gaudy (g : Gen) (i : Nat) (thread : List Msg) (st : St) :
    ((threadStep g i thread st).2.countP (isStampOf Tmpl.gaudy))
      = if 8 ≤ 1 + 2 * (thread.length - 1) then 1 else 0 := by
  simp only [threadStep]
  rw [branchLoop_col, placeNextRoom_snd, drop_len]
  rcases room_sel_getD (g (threadSeed thread st.rng).1 0 % 2) with hg | hg <;>
    rw [hg] <;>
      simp only [List.countP_append, List.countP_cons, List.countP_nil,
        branchLoop_countP_stamp g (threadSeed thread st.rng).1 (st.row + 1) _
          (thread.drop 1) Tmpl.gaudy (by simp) (by simp) (by simp),
        apply_ite (List.countP (isStampOf Tmpl.gaudy)), isStampOf] <;>
      simp <;>
      split_ifs <;> simp_all <;> omega

set_option maxHeartbeats 1000000 in
lemma threadStep_count_htunnel (g : Gen) (i : Nat) (thread : List Msg) (st : St) :
    ((threadStep g i thread st).2.countP (isStampOf Tmpl.h_tunnel))
      = thread.length - 1 := by
  simp only [threadStep]
  rw [branchLoop_col, placeNextRoom_snd, drop_len]
  rcases room_sel_getD (g (threadSeed thread st.rng).1 0 % 2) with hg | hg <;>
    rw [hg] <;>
      simp only [List.countP_append, List.countP_cons, List.countP_nil,
        branchLoop_countP_htunnel, List.length_drop,
        apply_ite (List.countP (isStampOf Tmpl.h_tunnel)), isStampOf] <;>
      simp <;>
      split_ifs <;> simp

set_option maxHeartbeats 1000000 in
lemma threadStep_count_seed (g : Gen) (i : Nat) (thread : List Msg) (st : St) :
    ((threadStep g i thread st).2.countP isSeedCall)
      = 1 + (thread.length - 1) := by
  simp only [threadStep]
  rw [branchLoop_col, placeNextRoom_snd, drop_len]
  simp only [List.countP_append, List.countP_cons, List.countP_nil,
    branchLoop_countP_seed, List.length_drop,
    apply_ite (List.countP isSeedCall), isSeedCall]
  simp

set_option maxHeartbeats 1000000 in
lemma threadStep_count_generic (g : Gen) (i : Nat) (thread : List Msg) (st : St) :
    ((threadStep g i thread st).2.countP isGenericStamp)
      = 1 + (thread.length - 1) := by
  simp only [threadStep]
  rw [branchLoop_col, placeNextRoom_snd, drop_len]
  rcases room_sel_getD (g (threadSeed thread st.rng).1 0 % 2) with hg | hg <;>
    rw [hg] <;>
      simp only [List.countP_append, List.countP_cons, List.countP_nil,
        branchLoop_countP_generic, List.length_drop,
        apply_ite (List.countP isGenericStamp), isGenericStamp, isStampOf] <;>
      simp <;>
      exact ⟨by split_ifs <;> simp, by split_ifs <;> simp⟩

set_option maxHeartbeats 1000000 in
lemma threadStep_count_stairs (g : Gen) (i : Nat) (thread : List Msg) (st : St) :
    ((threadStep g i thread st).2.countP (isStampOf Tmpl.stairs))
      = if bandTest i diffInterval length_setting == some true then 1 else 0 := by
  simp only [threadStep]
  rw [branchLoop_col, placeNextRoom_snd, drop_len]
  rcases room_sel_getD (g (threadSeed thread st.rng).1 0 % 2) with hg | hg <;>
    rw [hg] <;>
      simp only [List.countP_append, List.countP_cons, List.countP_nil,
        branchLoop_countP_stamp g (threadSeed thread st.rng).1 (st.row + 1) _
          (thread.drop 1) Tmpl.stairs (by simp) (by simp) (by simp),
        apply_ite (List.countP (isStampOf Tmpl.stairs)), isStampOf] <;>
      simp

set_option maxHeartbeats 1000000 in
lemma threadStep_count_hazAt0 (g : Gen) (i : Nat) (thread : List Msg) (st : St) :
    ((threadStep g i thread st).2.countP (isHazAt 0 (st.row + 1)))
      = if i % 2 = 1 then 2 else 0 := by
  simp only [threadStep]
  rw [branchLoop_col, placeNextRoom_snd, drop_len]
  simp only [List.countP_append, List.countP_cons, List.countP_nil,
    branchLoop_countP_hazAt0,
    apply_ite (List.countP (isHazAt 0 (st.row + 1))), isHazAt]
  simp

lemma threadStep_height (g : Gen) (i : Nat) (thread : List Msg) (st : St) :
    (threadStep g i thread st).1.height
      = if bandTest i diffInterval length_setting == some true
        then st.height + HEIGHT_INC else st.height := by
  simp only [threadStep]

lemma threadStep_col (g : Gen) (i : Nat) (thread : List Msg) (st : St) :
    (threadStep g i thread st).1.col = st.col := by
  simp only [threadStep]

lemma runThreads_height (g : Gen) (mds : List (List Msg)) : ∀ (i : Nat) (st : St),
    (runThreads g i mds st).1.height
      = st.height
          + HEIGHT_INC * ((runThreads g i mds st).2.countP (isStampOf Tmpl.stairs)) := by
  induction mds with
  | nil => intro i st; simp [runThreads]
  | cons t rest ih =>
    intro i st
    simp only [runThreads, List.countP_append]
    rw [ih, threadStep_height, threadStep_count_stairs]
    split_ifs <;> ring

lemma mainRun_height (g : Gen) (md : List (List Msg)) :
    (mainRun g md).1.height
      = HEIGHT_INC * ((mainRun g md).2.countP (isStampOf Tmpl.stairs)) := by
  simp only [mainRun, List.countP_append, List.countP_cons, List.countP_nil]
  rw [runThreads_height]
  simp [isStampOf]
  ring


lemma foldl_eastStep_const (col0 row0 : Nat) (l : List Ev)
    (hl : ∀ e ∈ l, ∀ s : Option Int, eastStep col0 row0 s e = s) :
    ∀ s : Option Int, l.foldl (eastStep col0 row0) s = s := by
  induction l with
  | nil => intro s; rfl
  | cons e rest ih =>
    intro s
    rw [List.foldl_cons, hl e (List.mem_cons_self e rest)]
    exact ih (fun e' he' s' => hl e' (List.mem_cons_of_mem e he') s') s

lemma eastStep_of_branch (g : Gen) (seed : PySeed) (col0 row0 col row h : Nat)
    (hc : col0 < col) (e : Ev) (he : BranchEv g seed col row h e)
    (s : Option Int) : eastStep col0 row0 s e = s := by
  rcases he with he | ⟨c, hcc, he⟩ | ⟨c, hcc, he⟩ | ⟨c, hcc, he⟩ | ⟨c, hcc, he⟩
    | ⟨c, hcc, he⟩ | ⟨c, hcc, h1, h24, he⟩ | ⟨c, hcc, h1, h24, he⟩ | ⟨c, hcc, he⟩ <;>
    subst he <;> simp [eastStep] <;> intro hceq <;> omega

lemma foldl_stampStep_const (col0 row0 : Nat) (l : List Ev)
    (hl : ∀ e ∈ l, ∀ s : Option Tmpl, stampStep col0 row0 s e = s) :
    ∀ s : Option Tmpl, l.foldl (stampStep col0 row0) s = s := by
  induction l with
  | nil => intro s; rfl
  | cons e rest ih =>
    intro s
    rw [List.foldl_cons, hl e (List.mem_cons_self e rest)]
    exact ih (fun e' he' s' => hl e' (List.mem_cons_of_mem e he') s') s

lemma stampStep_of_branch (g : Gen) (seed : PySeed) (col0 row0 col row h : Nat)
    (hc : col0 < col) (e : Ev) (he : BranchEv g seed col row h e)
    (s : Option Tmpl) : stampStep col0 row0 s e = s := by
  rcases he with he | ⟨c, hcc, he⟩ | ⟨c, hcc, he⟩ | ⟨c, hcc, he⟩ | ⟨c, hcc, he⟩
    | ⟨c, hcc, he⟩ | ⟨c, hcc, h1, h24, he⟩ | ⟨c, hcc, h1, h24, he⟩ | ⟨c, hcc, he⟩ <;>
    subst he <;> simp [stampStep] <;> intro hceq <;> omega

set_option maxHeartbeats 1000000 in
lemma threadStep_east_one (g : Gen) (i : Nat) (st : St) (m : Msg) :
    eastStateAt st.col (st.row + 1) (threadStep g i [m] st).2 = some 0 := by
  simp only [threadStep, eastStateAt, placeNextRoom_snd, branchLoop,
    List.foldl_append, List.drop_succ_cons, List.drop_nil]
  simp [eastStep, apply_ite (List.foldl (eastStep st.col (st.row + 1)))]
  split_ifs <;> simp [eastStep]

set_option maxHeartbeats 1000000 in
lemma threadStep_east_many (g : Gen) (i : Nat) (st : St) (m1 m2 : Msg)
    (rest : List Msg) :
    eastStateAt st.col (st.row + 1) (threadStep g i (m1 :: m2 :: rest) st).2
      = some 1 := by
  simp only [threadStep, eastStateAt, placeNextRoom_snd, List.foldl_append,
    List.drop_succ_cons, List.drop_zero]
  rw [branchLoop_col]
  rw [foldl_eastStep_const st.col (st.row + 1) _
    (fun e he s => eastStep_of_branch g _ st.col (st.row + 1) (st.col + 1) _ _
      (Nat.lt_succ_self st.col) e
      (branchLoop_mem g _ (st.row + 1) _ (m2 :: rest) (st.col + 1) _ e he) s)]
  simp [eastStep, apply_ite (List.foldl (eastStep st.col (st.row + 1)))]
  split_ifs <;> simp [eastStep] <;> omega

lemma foldl_puzzleStep_changed (g : Gen) (h d diff i : Nat) (l : List Nat) :
    ∀ acc : Chunk × RandState,
      ((l.foldl (puzzleStep g h d diff i) acc).1).changed = acc.1.changed := by
  induction l with
  | nil => intro acc; rfl
  | cons j rest ih =>
    intro acc
    rw [List.foldl_cons, ih]
    rfl

lemma foldl_puzzleRow_changed (g : Gen) (h d diff : Nat) (l : List Nat) :
    ∀ acc : Chunk × RandState,
      ((l.foldl (puzzleRow g h d diff) acc).1).changed = acc.1.changed := by
  induction l with
  | nil => intro acc; rfl
  | cons i rest ih =>
    intro acc
    rw [List.foldl_cons, ih, puzzleRow, foldl_puzzleStep_changed]

lemma floorPuzzle_changed (g : Gen) (room : Chunk) (h d diff : Nat)
    (rng : RandState) : (floorPuzzle g room h d diff rng).1.changed = room.changed := by
  rw [floorPuzzle, foldl_puzzleRow_changed]

lemma puzzleStep_S (g : Gen) (h d diff i : Nat) (acc : Chunk × RandState)
    (j x z y : Nat) (hs : acc.1.Blocks x z y = 1 ∨ acc.1.Blocks x z y = d) :
    (puzzleStep g h d diff i acc j).1.Blocks x z y = 1 ∨
      (puzzleStep g h d diff i acc j).1.Blocks x z y = d := by
  simp only [puzzleStep, puzzleWrite]
  split_ifs with hc hk
  · exact Or.inl rfl
  · exact Or.inr rfl
  · exact hs

lemma foldl_puzzleStep_S (g : Gen) (h d diff i : Nat) (l : List Nat)
    (x z y : Nat) : ∀ acc : Chunk × RandState,
    (acc.1.Blocks x z y = 1 ∨ acc.1.Blocks x z y = d) →
      ((l.foldl (puzzleStep g h d diff i) acc).1.Blocks x z y = 1 ∨
        (l.foldl (puzzleStep g h d diff i) acc).1.Blocks x z y = d) := by
  induction l with
  | nil => intro acc hs; exact hs
  | cons j rest ih =>
    intro acc hs
    rw [List.foldl_cons]
    exact ih _ (puzzleStep_S g h d diff i acc j x z y hs)

lemma foldl_puzzleStep_cov (g : Gen) (h d diff i : Nat) (l : List Nat)
    (j0 : Nat) (hj : j0 ∈ l) : ∀ acc : Chunk × RandState,
    ((l.foldl (puzzleStep g h d diff i) acc).1.Blocks (1 + j0) (2 + i) (3 + h) = 1 ∨
      (l.foldl (puzzleStep g h d diff i) acc).1.Blocks (1 + j0) (2 + i) (3 + h) = d) := by
  induction l with
  | nil => cases hj
  | cons j rest ih =>
    intro acc
    rw [List.foldl_cons]
    rcases List.mem_cons.1 hj with hj0 | hj0
    · subst hj0
      refine foldl_puzzleStep_S g h d diff i rest _ _ _ _ ?_
      simp only [puzzleStep, puzzleWrite]
      split_ifs with hk
      · exact Or.inl rfl
      · exact Or.inr rfl
      · simp at hk
    · exact ih hj0 _

lemma puzzleRow_S (g : Gen) (h d diff : Nat) (acc : Chunk × RandState)
    (i x z y : Nat) (hs : acc.1.Blocks x z y = 1 ∨ acc.1.Blocks x z y = d) :
    ((puzzleRow g h d diff acc i).1.Blocks x z y = 1 ∨
      (puzzleRow g h d diff acc i).1.Blocks x z y = d) := by
  rw [puzzleRow]
  exact foldl_puzzleStep_S g h d diff i _ x z y acc hs

lemma puzzleRow_cov (g : Gen) (h d diff : Nat) (acc : Chunk × RandState)
    (i j0 : Nat) (hj : j0 < 14) :
    ((puzzleRow g h d diff acc i).1.Blocks (1 + j0) (2 + i) (3 + h) = 1 ∨
      (puzzleRow g h d diff acc i).1.Blocks (1 + j0) (2 + i) (3 + h) = d) := by
  rw [puzzleRow]
  exact foldl_puzzleStep_cov g h d diff i _ j0 (List.mem_range.2 hj) acc

lemma foldl_puzzleRow_S (g : Gen) (h d diff : Nat) (l : List Nat)
    (x z y : Nat) : ∀ acc : Chunk × RandState,
    (acc.1.Blocks x z y = 1 ∨ acc.1.Blocks x z y = d) →
      ((l.foldl (puzzleRow g h d diff) acc).1.Blocks x z y = 1 ∨
        (l.foldl (puzzleRow g h d diff) acc).1.Blocks x z y = d) := by
  induction l with
  | nil => intro acc hs; exact hs
  | cons i rest ih =>
    intro acc hs
    rw [List.foldl_cons]
    exact ih _ (puzzleRow_S g h d diff acc i x z y hs)

lemma foldl_puzzleRow_cov (g : Gen) (h d diff : Nat) (l : List Nat)
    (i0 j0 : Nat) (hi : i0 ∈ l) (hj : j0 < 14) : ∀ acc : Chunk × RandState,
    ((l.foldl (puzzleRow g h d diff) acc).1.Blocks (1 + j0) (2 + i0) (3 + h) = 1 ∨
      (l.foldl (puzzleRow g h d diff) acc).1.Blocks (1 + j0) (2 + i0) (3 + h) = d) := by
  induction l with
  | nil => cases hi
  | cons i rest ih =>
    intro acc
    rw [List.foldl_cons]
    rcases List.mem_cons.1 hi with hi0 | hi0
    · subst hi0
      exact foldl_puzzleRow_S g h d diff rest _ _ _ _
        (puzzleRow_cov g h d diff acc i0 j0 hj)
    · exact ih hi0 _

lemma floorPuzzle_cov (g : Gen) (room : Chunk) (h d diff : Nat)
    (rng : RandState) (j0 i0 : Nat) (hj : j0 < 14) (hi : i0 < 12) :
    ((floorPuzzle g room h d diff rng).1.Blocks (1 + j0) (2 + i0) (3 + h) = 1 ∨
      (floorPuzzle g room h d diff rng).1.Blocks (1 + j0) (2 + i0) (3 + h) = d) := by
  rw [floorPuzzle]
  exact foldl_puzzleRow_cov g h d diff _ i0 j0 (List.mem_range.2 hi) hj _

lemma foldl_puzzleStep_rng (g : Gen) (h d diff i : Nat) (l : List Nat) :
    ∀ acc : Chunk × RandState,
      (l.foldl (puzzleStep g h d diff i) acc).2 = (acc.2.1, acc.2.2 + l.length) := by
  induction l with
  | nil => intro acc; rfl
  | cons j rest ih =>
    intro acc
    rw [List.foldl_cons, ih]
    simp only [puzzleStep, pyRandint, List.length_cons, Prod.mk.injEq]
    exact ⟨trivial, by omega⟩

lemma foldl_puzzleRow_rng (g : Gen) (h d diff : Nat) (l : List Nat) :
    ∀ acc : Chunk × RandState,
      (l.foldl (puzzleRow g h d diff) acc).2 = (acc.2.1, acc.2.2 + 14 * l.length) := by
  induction l with
  | nil => intro acc; simp
  | cons i rest ih =>
    intro acc
    rw [List.foldl_cons, ih, puzzleRow, foldl_puzzleStep_rng]
    simp only [List.length_range, List.length_cons, Prod.mk.injEq]
    exact ⟨trivial, by omega⟩

/-- The floor puzzle consumes exactly 12 * 14 = 168 draws from the
global stream and changes nothing else about it; this is the fact that
lets the trace-level model summarize floorPuzzle by advanceDraws. -/
lemma floorPuzzle_rng (g : Gen) (room : Chunk) (h d diff : Nat)
    (rng : RandState) : (floorPuzzle g room h d diff rng).2 = advanceDraws rng 168 := by
  rw [floorPuzzle, foldl_puzzleRow_rng]
  rfl

lemma branchCell_countP_lavaOff0 (g : Gen) (seed : PySeed) (col row h : Nat)
    (rng : RandState) :
    ((branchCell g seed col row h rng).2.countP isLavaOff0)
      = if h < 24 then 1 else 0 := by
  simp only [branchCell, placeNextRoom_snd]
  rcases room_sel_getD (g seed 0 % 2) with hg | hg <;> rw [hg] <;>
    split_ifs <;>
      simp_all [beq_iff_eq, isLavaOff0, List.countP_append, List.countP_cons]

lemma branchCell_countP_nofloorOff0 (g : Gen) (seed : PySeed) (col row h : Nat)
    (rng : RandState) :
    ((branchCell g seed col row h rng).2.countP isNofloorOff0)
      = if h < 24 then 0 else 1 := by
  simp only [branchCell, placeNextRoom_snd]
  rcases room_sel_getD (g seed 0 % 2) with hg | hg <;> rw [hg] <;>
    split_ifs <;>
      simp_all [beq_iff_eq, isNofloorOff0, List.countP_append, List.countP_cons]

lemma branchCell_countP_lavaAt0 (g : Gen) (seed : PySeed) (col row h : Nat)
    (rng : RandState) (r' : Nat) :
    ((branchCell g seed col row h rng).2.countP (isLavaAt0 r')) = 0 := by
  simp only [branchCell, placeNextRoom_snd]
  rcases room_sel_getD (g seed 0 % 2) with hg | hg <;> rw [hg] <;>
    split_ifs <;>
      simp_all [beq_iff_eq, isLavaAt0, List.countP_append, List.countP_cons]

lemma branchCell_countP_nofloorAt0 (g : Gen) (seed : PySeed) (col row h : Nat)
    (rng : RandState) (r' : Nat) :
    ((branchCell g seed col row h rng).2.countP (isNofloorAt0 r')) = 0 := by
  simp only [branchCell, placeNextRoom_snd]
  rcases room_sel_getD (g seed 0 % 2) with hg | hg <;> rw [hg] <;>
    split_ifs <;>
      simp_all [beq_iff_eq, isNofloorAt0, List.countP_append, List.countP_cons]

lemma branchLoop_countP_lavaOff0 (g : Gen) (seed : PySeed) (row h : Nat)
    (msgs : List Msg) : ∀ (col : Nat) (rng : RandState),
    ((branchLoop g seed row h msgs (col, rng)).2.countP isLavaOff0)
      = if h < 24 then msgs.length else 0 := by
  induction msgs with
  | nil => intro col rng; simp [branchLoop]
  | cons m rest ih =>
    intro col rng
    simp only [branchLoop, List.countP_append, List.length_cons]
    rw [branchCell_countP_lavaOff0, ih]
    split_ifs <;> omega

lemma branchLoop_countP_nofloorOff0 (g : Gen) (seed : PySeed) (row h : Nat)
    (msgs : List Msg) : ∀ (col : Nat) (rng : RandState),
    ((branchLoop g seed row h msgs (col, rng)).2.countP isNofloorOff0)
      = if h < 24 then 0 else msgs.length := by
  induction msgs with
  | nil => intro col rng; simp [branchLoop]
  | cons m rest ih =>
    intro col rng
    simp only [branchLoop, List.countP_append, List.length_cons]
    rw [branchCell_countP_nofloorOff0, ih]
    split_ifs <;> omega

lemma branchLoop_countP_lavaAt0 (g : Gen) (seed : PySeed) (row h : Nat)
    (msgs : List Msg) (r' : Nat) : ∀ (col : Nat) (rng : RandState),
    ((branchLoop g seed row h msgs (col, rng)).2.countP (isLavaAt0 r')) = 0 := by
  induction msgs with
  | nil => intro col rng; simp [branchLoop]
  | cons m rest ih =>
    intro col rng
    simp only [branchLoop, List.countP_append]
    rw [branchCell_countP_lavaAt0, ih]

lemma branchLoop_countP_nofloorAt0 (g : Gen) (seed : PySeed) (row h : Nat)
    (msgs : List Msg) (r' : Nat) : ∀ (col : Nat) (rng : RandState),
    ((branchLoop g seed row h msgs (col, rng)).2.countP (isNofloorAt0 r')) = 0 := by
  induction msgs with
  | nil => intro col rng; simp [branchLoop]
  | cons m rest ih =>
    intro col rng
    simp only [branchLoop, List.countP_append]
    rw [branchCell_countP_nofloorAt0, ih]

set_option maxHeartbeats 1000000 in
lemma threadStep_count_lavaOff0 (g : Gen) (i : Nat) (thread : List Msg) (st : St) :
    ((threadStep g i thread st).2.countP isLavaOff0)
      = if (threadStep g i thread st).1.height < 24 then thread.length - 1
        else 0 := by
  rw [threadStep_height]
  simp only [threadStep]
  rw [branchLoop_col, placeNextRoom_snd, drop_len]
  simp only [List.countP_append, List.countP_cons, List.countP_nil,
    branchLoop_countP_lavaOff0, List.length_drop,
    apply_ite (List.countP isLavaOff0), isLavaOff0]
  simp

set_option maxHeartbeats 1000000 in
lemma threadStep_count_nofloorOff0 (g : Gen) (i : Nat) (thread : List Msg) (st : St) :
    ((threadStep g i thread st).2.countP isNofloorOff0)
      = if (threadStep g i thread st).1.height < 24 then 0
        else thread.length - 1 := by
  rw [threadStep_height]
  simp only [threadStep]
  rw [branchLoop_col, placeNextRoom_snd, drop_len]
  simp only [List.countP_append, List.countP_cons, List.countP_nil,
    branchLoop_countP_nofloorOff0, List.length_drop,
    apply_ite (List.countP isNofloorOff0), isNofloorOff0]
  simp

set_option maxHeartbeats 1000000 in
lemma threadStep_count_lavaAt0 (g : Gen) (i : Nat) (thread : List Msg) (st : St) :
    ((threadStep g i thread st).2.countP (isLavaAt0 (st.row + 1)))
      = if i % 2 = 1 ∧ (threadStep g i thread st).1.height < 16 then 1
        else 0 := by
  rw [threadStep_height]
  simp only [threadStep]
  rw [branchLoop_col, placeNextRoom_snd, drop_len]
  simp only [List.countP_append, List.countP_cons, List.countP_nil,
    branchLoop_countP_lavaAt0,
    apply_ite (List.countP (isLavaAt0 (st.row + 1))), isLavaAt0]
  simp
  split_ifs <;> simp_all

set_option maxHeartbeats 1000000 in
lemma threadStep_count_nofloorAt0 (g : Gen) (i : Nat) (thread : List Msg) (st : St) :
    ((threadStep g i thread st).2.countP (isNofloorAt0 (st.row + 1)))
      = if i % 2 = 1 ∧ ¬ (threadStep g i thread st).1.height < 16 then 1
        else 0 := by
  rw [threadStep_height]
  simp only [threadStep]
  rw [branchLoop_col, placeNextRoom_snd, drop_len]
  simp only [List.countP_append, List.countP_cons, List.countP_nil,
    branchLoop_countP_nofloorAt0,
    apply_ite (List.countP (isNofloorAt0 (st.row + 1))), isNofloorAt0]
  simp
  split_ifs <;> simp_all <;> omega

lemma branchCell_countP_basic (g : Gen) (seed : PySeed) (col row h : Nat)
    (rng : RandState) :
    ((branchCell g seed col row h rng).2.countP (isStampOf Tmpl.basic))
      = if g seed 0 % 2 = 0 then 1 else 0 := by
  simp only [branchCell, placeNextRoom_snd]
  rcases Nat.mod_two_eq_zero_or_one (g seed 0) with hm | hm <;> rw [hm] <;>
    split_ifs <;>
      simp_all [beq_iff_eq, isStampOf, room_sel, List.countP_append,
        List.countP_cons]

lemma branchCell_countP_basic2 (g : Gen) (seed : PySeed) (col row h : Nat)
    (rng : RandState) :
    ((branchCell g seed col row h rng).2.countP (isStampOf Tmpl.basic2))
      = if g seed 0 % 2 = 0 then 0 else 1 := by
  simp only [branchCell, placeNextRoom_snd]
  rcases Nat.mod_two_eq_zero_or_one (g seed 0) with hm | hm <;> rw [hm] <;>
    split_ifs <;>
      simp_all [beq_iff_eq, isStampOf, room_sel, List.countP_append,
        List.countP_cons]

lemma branchCell_countP_seedEq (g : Gen) (seed : PySeed) (col row h : Nat)
    (rng : RandState) (s' : PySeed) :
    ((branchCell g seed col row h rng).2.countP (fun e => e == Ev.seedCall s'))
      = if seed = s' then 1 else 0 := by
  simp only [branchCell, placeNextRoom_snd]
  rcases room_sel_getD (g seed 0 % 2) with hg | hg <;> rw [hg] <;>
    split_ifs <;>
      simp_all [beq_iff_eq, List.countP_append, List.countP_cons]

lemma branchLoop_countP_basic (g : Gen) (seed : PySeed) (row h : Nat)
    (msgs : List Msg) : ∀ (col : Nat) (rng : RandState),
    ((branchLoop g seed row h msgs (col, rng)).2.countP (isStampOf Tmpl.basic))
      = if g seed 0 % 2 = 0 then msgs.length else 0 := by
  induction msgs with
  | nil => intro col rng; simp [branchLoop]
  | cons m rest ih =>
    intro col rng
    simp only [branchLoop, List.countP_append, List.length_cons]
    rw [branchCell_countP_basic, ih]
    split_ifs <;> omega

lemma branchLoop_countP_basic2 (g : Gen) (seed : PySeed) (row h : Nat)
    (msgs : List Msg) : ∀ (col : Nat) (rng : RandState),
    ((branchLoop g seed row h msgs (col, rng)).2.countP (isStampOf Tmpl.basic2))
      = if g seed 0 % 2 = 0 then 0 else msgs.length := by
  induction msgs with
  | nil => intro col rng; simp [branchLoop]
  | cons m rest ih =>
    intro col rng
    simp only [branchLoop, List.countP_append, List.length_cons]
    rw [branchCell_countP_basic2, ih]
    split_ifs <;> omega

lemma branchLoop_countP_seedEq (g : Gen) (seed : PySeed) (row h : Nat)
    (msgs : List Msg) (s' : PySeed) : ∀ (col : Nat) (rng : RandState),
    ((branchLoop g seed row h msgs (col, rng)).2.countP (fun e => e == Ev.seedCall s'))
      = if seed = s' then msgs.length else 0 := by
  induction msgs with
  | nil => intro col rng; simp [branchLoop]
  | cons m rest ih =>
    intro col rng
    simp only [branchLoop, List.countP_append, List.length_cons]
    rw [branchCell_countP_seedEq, ih]
    split_ifs <;> omega

set_option maxHeartbeats 1000000 in
lemma threadStep_count_basic (g : Gen) (i : Nat) (thread : List Msg) (st : St) :
    ((threadStep g i thread st).2.countP (isStampOf Tmpl.basic))
      = if g (threadSeed thread st.rng).1 0 % 2 = 0 then 1 + (thread.length - 1)
        else 0 := by
  simp only [threadStep]
  rw [branchLoop_col, placeNextRoom_snd, drop_len]
  rcases Nat.mod_two_eq_zero_or_one (g (threadSeed thread st.rng).1 0) with hm | hm <;>
    rw [hm] <;>
      simp only [List.countP_append, List.countP_cons, List.countP_nil,
        branchLoop_countP_basic, List.length_drop, hm, room_sel,
        apply_ite (List.countP (isStampOf Tmpl.basic)), isStampOf] <;>
      simp <;>
      split_ifs <;> simp_all

set_option maxHeartbeats 1000000 in
lemma threadStep_count_basic2 (g : Gen) (i : Nat) (thread : List Msg) (st : St) :
    ((threadStep g i thread st).2.countP (isStampOf Tmpl.basic2))
      = if g (threadSeed thread st.rng).1 0 % 2 = 0 then 0
        else 1 + (thread.length - 1) := by
  simp only [threadStep]
  rw [branchLoop_col, placeNextRoom_snd, drop_len]
  rcases Nat.mod_two_eq_zero_or_one (g (threadSeed thread st.rng).1 0) with hm | hm <;>
    rw [hm] <;>
      simp only [List.countP_append, List.countP_cons, List.countP_nil,
        branchLoop_countP_basic2, List.length_drop, hm, room_sel,
        apply_ite (List.countP (isStampOf Tmpl.basic2)), isStampOf] <;>
      simp <;>
      split_ifs <;> simp_all

set_option maxHeartbeats 1000000 in
lemma threadStep_count_seedEq (g : Gen) (i : Nat) (thread : List Msg) (st : St) :
    ((threadStep g i thread st).2.countP
        (fun e => e == Ev.seedCall (threadSeed thread st.rng).1))
      = 1 + (thread.length - 1) := by
  simp only [threadStep]
  rw [branchLoop_col, placeNextRoom_snd, drop_len]
  rcases room_sel_getD (g (threadSeed thread st.rng).1 0 % 2) with hg | hg <;>
    rw [hg] <;>
      simp only [List.countP_append, List.countP_cons, List.countP_nil,
        branchLoop_countP_seedEq, List.length_drop,
        apply_ite (List.countP (fun e => e == Ev.seedCall (threadSeed thread st.rng).1))] <;>
      simp

set_option maxHeartbeats 1000000 in
lemma threadStep_lastStamp (g : Gen) (i : Nat) (thread : List Msg)
    (row0 h0 : Nat) (rng0 : RandState) :
    lastStampAt 0 (row0 + 1) (threadStep g i thread ⟨row0, 0, h0, rng0⟩).2
      = some (room_sel.getD (g (threadSeed thread rng0).1 0 % 2) Tmpl.basic) := by
  simp only [threadStep, lastStampAt, placeNextRoom_snd, List.foldl_append]
  rw [branchLoop_col]
  rw [foldl_stampStep_const 0 (row0 + 1) _
    (fun e he s => stampStep_of_branch g _ 0 (row0 + 1) (0 + 1) _ _
      Nat.zero_lt_one e
      (branchLoop_mem g _ (row0 + 1) _ (thread.drop 1) (0 + 1) _ e he) s)]
  simp [stampStep, apply_ite (List.foldl (stampStep 0 (row0 + 1)))]
  split_ifs <;> simp [stampStep]

set_option maxHeartbeats 1000000 in
lemma threadStep_seed_head (g : Gen) (i : Nat) (thread : List Msg) (st : St) :
    (((threadStep g i thread st).2.filter isSeedCall).head?)
      = some (Ev.seedCall (threadSeed thread st.rng).1) := by
  simp only [threadStep, placeNextRoom_snd, List.filter_append]
  simp [isSeedCall]

/-- C1: for every processed thread, the terminal treatment after the
branch loop is a function of the cursor advance past the branch
origin, which is always 1 + 2 * (len(thread) - 1): an advance of 4 or
fewer columns seals the last room's east doorway, an advance of 5, 6
or 7 stamps a plain treasure room at the cursor, and an advance of 8
or more stamps a gaudy treasure room — so the boundaries fall between
4/5 and 7/8, but an advance of exactly 5 yields the plain treasure
room, not the sealed doorway that the claim states. -/
theorem C1_terminal_treatment (g : Gen) (i : Nat) (thread : List Msg) (st : St) :
    ((threadStep g i thread st).2.countP isSealEast
      = if 1 + 2 * (thread.length - 1) < 5 then 1 else 0)
  ∧ ((threadStep g i thread st).2.countP (isStampOf Tmpl.treasure)
      = if 1 + 2 * (thread.length - 1) < 5 then 0
        else if 1 + 2 * (thread.length - 1) < 8 then 1 else 0)
  ∧ ((threadStep g i thread st).2.countP (isStampOf Tmpl.gaudy)
      = if 8 ≤ 1 + 2 * (thread.length - 1) then 1 else 0) :=
  ⟨threadStep_count_seal g i thread st, threadStep_count_treasure g i thread st,
    threadStep_count_gaudy g i thread st⟩

/-- C1 counterexample: a thread of three messages advances the cursor
exactly 5 columns past the branch origin, and the engine stamps a
plain treasure room there and seals nothing — the claim's "advancing
exactly 5 columns yields seal last doorway" is false on the code. -/
theorem C1_counterexample :
    1 + 2 * (([mA, mA, mA] : List Msg).length - 1) = 5
  ∧ (threadStep g0 0 [mA, mA, mA] st0).2.countP isSealEast = 0
  ∧ (threadStep g0 0 [mA, mA, mA] st0).2.countP (isStampOf Tmpl.treasure) = 1 := by
  decide

/-- C2: for every processed thread the engine places exactly
len(thread) - 1 horizontal-tunnel stamps (one per message beyond the
first) and exactly 1 + (len(thread) - 1) generic-room stamps (the
branch entry plus one per pair); there is no cap on the branch
length. -/
theorem C2_branch_pairs (g : Gen) (i : Nat) (thread : List Msg) (st : St) :
    ((threadStep g i thread st).2.countP (isStampOf Tmpl.h_tunnel)
      = thread.length - 1)
  ∧ ((threadStep g i thread st).2.countP isGenericStamp
      = 1 + (thread.length - 1)) :=
  ⟨threadStep_count_htunnel g i thread st, threadStep_count_generic g i thread st⟩

/-- C2 counterexample: no finite configured cap can describe the
branch loop — for any candidate cap, a thread with cap + 2 messages
receives cap + 1 horizontal-tunnel+room pairs, exceeding min(len-1,
cap); the code's loop is uncapped. -/
theorem C2_counterexample :
    ¬ ∃ cap : Nat, ∀ (g : Gen) (i : Nat) (thread : List Msg) (st : St),
      (threadStep g i thread st).2.countP (isStampOf Tmpl.h_tunnel)
        = min (thread.length - 1) cap := by
  rintro ⟨cap, hcap⟩
  have h := hcap g0 0 (List.replicate (cap + 2) mA) st0
  rw [threadStep_count_htunnel] at h
  simp only [List.length_replicate] at h
  omega

/-- C3: the height counter starts at 0 and ends the run at exactly
HEIGHT_INC times the number of staircase stamps in the run's trace,
and across every single thread iteration the height never decreases
and changes by exactly HEIGHT_INC times the number of staircase
stamps that iteration emits — so height is non-decreasing, increments
only with a staircase stamp, and always by the fixed floor unit. -/
theorem C3_height_monotone (g : Gen) (md : List (List Msg)) :
    ((mainRun g md).1.height
      = HEIGHT_INC * ((mainRun g md).2.countP (isStampOf Tmpl.stairs)))
  ∧ (∀ (i : Nat) (thread : List Msg) (st : St),
      st.height ≤ (threadStep g i thread st).1.height
      ∧ (threadStep g i thread st).1.height
          = st.height
            + HEIGHT_INC
              * ((threadStep g i thread st).2.countP (isStampOf Tmpl.stairs))) := by
  refine ⟨mainRun_height g md, fun i thread st => ?_⟩
  rw [threadStep_height, threadStep_count_stairs]
  constructor
  · split_ifs <;> omega
  · split_ifs <;> omega

/-- C4: the program's configuration resolves the band interval to
int(20 / 4) = 5, which is never zero, so the per-iteration modulo
never divides by zero during a run of this program; but the code has
no defensive guard — whenever the interval expression does resolve to
zero (for example lengthLimit 3 with 4 bands, int(3 / 4) = 0), the
band test raises (modelled as none) at every iteration, including the
very first, instead of clamping. -/
theorem C4_band_interval :
    diffInterval = 5
  ∧ (∀ i : Nat, (bandTest i diffInterval length_setting).isSome = true)
  ∧ (∀ i : Nat, bandTest i 0 length_setting = none) := by
  refine ⟨by decide, fun i => ?_, fun i => rfl⟩
  rw [(by decide : diffInterval = 5)]
  simp [bandTest]

/-- C4 counterexample: a configuration of 3 threads with 4 bands makes
the interval computation resolve to zero, and the band-boundary test
then raises (none) at iteration 0 rather than being guarded — the
claim's "guards this defensively rather than raising; the test never
performs a modulo by zero" is false of the code. -/
theorem C4_counterexample :
    Int.fdiv 3 4 = 0 ∧ bandTest 0 (Int.fdiv 3 4) length_setting = none := by
  decide

/-- C5: within one thread the global stream is reseeded from the
thread's seed at every room placement — once for the entry room and
once per branch room, i.e. 1 + (len(thread) - 1) times, every reseed
using the same thread seed — and consequently every generic room of
the thread is the single template selected by the first post-reseed
draw (all basic when that draw is even, all basic2 when odd), rather
than successive draws of one stream. -/
theorem C5_reseeding (g : Gen) (i : Nat) (thread : List Msg) (st : St) :
    ((threadStep g i thread st).2.countP isSeedCall = 1 + (thread.length - 1))
  ∧ ((threadStep g i thread st).2.countP
        (fun e => e == Ev.seedCall (threadSeed thread st.rng).1)
      = 1 + (thread.length - 1))
  ∧ ((threadStep g i thread st).2.countP (isStampOf Tmpl.basic)
      = if g (threadSeed thread st.rng).1 0 % 2 = 0 then 1 + (thread.length - 1)
        else 0)
  ∧ ((threadStep g i thread st).2.countP (isStampOf Tmpl.basic2)
      = if g (threadSeed thread st.rng).1 0 % 2 = 0 then 0
        else 1 + (thread.length - 1)) :=
  ⟨threadStep_count_seed g i thread st, threadStep_count_seedEq g i thread st,
    threadStep_count_basic g i thread st, threadStep_count_basic2 g i thread st⟩

/-- C5 counterexample: a thread with two messages triggers two
random.seed calls, not the single start-of-thread reseed the claim
states. -/
theorem C5_counterexample :
    (threadStep g0 0 [mA, mA] st0).2.countP isSeedCall = 2
  ∧ (threadStep g0 0 [mA, mA] st0).2.countP isSeedCall ≠ 1 := by
  decide

/-- C6: the branch-entry room of a 1-message thread ends the thread's
processing with its east exit set to wall (0), and the entry room of a
thread with more than one message ends with its east exit open (1). -/
theorem C6_entry_east (g : Gen) (i : Nat) (thread : List Msg) (st : St) :
    (thread.length = 1 →
      eastStateAt st.col (st.row + 1) (threadStep g i thread st).2 = some 0)
  ∧ (1 < thread.length →
      eastStateAt st.col (st.row + 1) (threadStep g i thread st).2 = some 1) := by
  constructor
  · intro h1
    rcases thread with _ | ⟨m, _ | ⟨m2, rest⟩⟩
    · simp at h1
    · exact threadStep_east_one g i st m
    · simp at h1
  · intro h2
    rcases thread with _ | ⟨m, _ | ⟨m2, rest⟩⟩
    · simp at h2
    · simp at h2
    · exact threadStep_east_many g i st m m2 rest

/-- C6 witness: concrete one- and two-message threads. -/
theorem C6_witness :
    eastStateAt st0.col (st0.row + 1) (threadStep g0 0 [mA] st0).2 = some 0
  ∧ eastStateAt st0.col (st0.row + 1) (threadStep g0 0 [mA, mA] st0).2 = some 1 :=
  ⟨(C6_entry_east g0 0 [mA] st0).1 rfl,
    (C6_entry_east g0 0 [mA, mA] st0).2 (by decide)⟩

/-- C7: the first random.seed call of a thread's processing always
uses the derived thread seed, and that seed is the first message's
sender truncated to 15 characters when that truncation is non-empty,
and a fresh draw from the current global stream when the thread is
empty or the truncated sender is the empty string. -/
theorem C7_seed_derivation (g : Gen) (i : Nat) (thread : List Msg) (st : St) :
    (((threadStep g i thread st).2.filter isSeedCall).head?
      = some (Ev.seedCall (threadSeed thread st.rng).1))
  ∧ (∀ m rest, thread = m :: rest → (m.fro.take 15).length ≠ 0 →
      (threadSeed thread st.rng).1 = PySeed.str (m.fro.take 15))
  ∧ (thread = [] →
      (threadSeed thread st.rng).1 = PySeed.draw st.rng.1 st.rng.2)
  ∧ (∀ m rest, thread = m :: rest → (m.fro.take 15).length = 0 →
      (threadSeed thread st.rng).1 = PySeed.draw st.rng.1 st.rng.2) := by
  refine ⟨threadStep_seed_head g i thread st, ?_, ?_, ?_⟩
  · rintro m rest rfl hne
    simp [threadSeed, hne]
  · rintro rfl
    simp [threadSeed, pyRandom]
  · rintro m rest rfl he
    simp [threadSeed, he, pyRandom]

/-- C7 witness: a non-empty sender yields the string seed, an empty
thread and an empty sender yield the fresh-draw seed. -/
theorem C7_witness :
    (threadSeed [mA] st0.rng).1 = PySeed.str (mA.fro.take 15)
  ∧ (threadSeed ([] : List Msg) st0.rng).1 = PySeed.draw st0.rng.1 st0.rng.2
  ∧ (threadSeed [mE] st0.rng).1 = PySeed.draw st0.rng.1 st0.rng.2 :=
  ⟨(C7_seed_derivation g0 0 [mA] st0).2.1 mA [] rfl (by decide),
    (C7_seed_derivation g0 0 [] st0).2.2.1 rfl,
    (C7_seed_derivation g0 0 [mE] st0).2.2.2 mE [] rfl (by decide)⟩

/-- C7 counterexample: a non-empty thread whose first message has an
empty sender seeds from a fresh random draw, not from the sender
string as the claim states. -/
theorem C7_counterexample :
    ((threadStep g0 0 [mE] st0).2.filter isSeedCall)
      = [Ev.seedCall (PySeed.draw PySeed.sys 0)]
  ∧ PySeed.draw PySeed.sys 0 ≠ PySeed.str mE.fro
  ∧ mE.fro = "" ∧ ([mE] : List Msg) ≠ [] := by
  decide

/-- C8: on every odd-indexed thread exactly one hazard-floor
application and one puzzle application hit the cell at column 0 of the
branch row (and none on even threads), and when the branch origin
column is 0 — as it always is in main — the last template stamped into
that cell is the seed-selected generic entry room (basic or basic2),
not a tunnel template. -/
theorem C8_corridor_hazard (g : Gen) (i : Nat) (thread : List Msg) (st : St) :
    ((threadStep g i thread st).2.countP (isHazAt 0 (st.row + 1))
      = if i % 2 = 1 then 2 else 0)
  ∧ (st.col = 0 →
      lastStampAt 0 (st.row + 1) (threadStep g i thread st).2
        = some (room_sel.getD (g (threadSeed thread st.rng).1 0 % 2) Tmpl.basic))
  ∧ (room_sel.getD (g (threadSeed thread st.rng).1 0 % 2) Tmpl.basic = Tmpl.basic
      ∨ room_sel.getD (g (threadSeed thread st.rng).1 0 % 2) Tmpl.basic
          = Tmpl.basic2) := by
  refine ⟨threadStep_count_hazAt0 g i thread st, ?_, room_sel_getD _⟩
  rcases st with ⟨r0, c0, h0, rg0⟩
  intro hc
  simp only at hc
  subst hc
  exact threadStep_lastStamp g i thread r0 h0 rg0

/-- C8 witness: the odd thread of a concrete two-thread run. -/
theorem C8_witness :
    lastStampAt 0 (st0.row + 1) (threadStep g0 1 [mA] st0).2
      = some (room_sel.getD (g0 (threadSeed [mA] st0.rng).1 0 % 2) Tmpl.basic) :=
  (C8_corridor_hazard g0 1 [mA] st0).2.1 rfl

/-- C8 counterexample: in a concrete run the odd-thread hazard lands
on cell (0, 4), whose last stamped template is the generic basic room
— not a tunnel cell as the claim states. -/
theorem C8_counterexample :
    (mainRun g0 [[mA], [mA]]).2.contains (Ev.lava 0 4 0) = true
  ∧ lastStampAt 0 4 (mainRun g0 [[mA], [mA]]).2 = some Tmpl.basic
  ∧ Tmpl.basic ≠ Tmpl.v_tunnel ∧ Tmpl.basic ≠ Tmpl.h_tunnel := by
  decide

/-- C9: in every thread iteration the branch rooms (columns other than
0) receive the lava hazard exactly when the current height is below 24
and the floor-removal hazard otherwise, while the odd-thread corridor
cell at column 0 receives lava exactly when the height is below 16 and
floor removal otherwise — so for heights in [16, 24) the same
iteration gives branch rooms lava and the corridor cell floor
removal. -/
theorem C9_hazard_thresholds (g : Gen) (i : Nat) (thread : List Msg) (st : St) :
    ((threadStep g i thread st).2.countP isLavaOff0
      = if (threadStep g i thread st).1.height < 24 then thread.length - 1
        else 0)
  ∧ ((threadStep g i thread st).2.countP isNofloorOff0
      = if (threadStep g i thread st).1.height < 24 then 0
        else thread.length - 1)
  ∧ ((threadStep g i thread st).2.countP (isLavaAt0 (st.row + 1))
      = if i % 2 = 1 ∧ (threadStep g i thread st).1.height < 16 then 1 else 0)
  ∧ ((threadStep g i thread st).2.countP (isNofloorAt0 (st.row + 1))
      = if i % 2 = 1 ∧ ¬ (threadStep g i thread st).1.height < 16 then 1
        else 0) :=
  ⟨threadStep_count_lavaOff0 g i thread st,
    threadStep_count_nofloorOff0 g i thread st,
    threadStep_count_lavaAt0 g i thread st,
    threadStep_count_nofloorAt0 g i thread st⟩

/-- C9 witness: at height 16 on an odd thread with two messages, the
branch room gets lava (16 < 24) while the corridor cell gets the
floor-removal hazard (not 16 < 16). -/
theorem C9_witness :
    (threadStep g0 1 [mA, mA] st16).2.countP isLavaOff0 = 1
  ∧ (threadStep g0 1 [mA, mA] st16).2.countP (isNofloorAt0 (st16.row + 1)) = 1 := by
  have h := C9_hazard_thresholds g0 1 [mA, mA] st16
  refine ⟨?_, ?_⟩
  · rw [h.1]; decide
  · rw [h.2.2.2]; decide

/-- C10: floorPuzzle writes a safe tile (1) or the danger block at
every interior position of floor layer 3+h but never notifies the
voxel grid of the change, while every other mutating primitive —
wipeChunk, roomCopy, deepCopy, setExits, theFloorIsLava, noFloor,
makePillar — calls chunkChanged exactly once before returning. -/
theorem C10_change_notifications (g : Gen) (fro room : Chunk)
    (h d diff : Nat) (rng : RandState) (w e n s' : Int) :
    ((floorPuzzle g room h d diff rng).1.changed = room.changed)
  ∧ (∀ (j : Fin 14) (i : Fin 12),
      (floorPuzzle g room h d diff rng).1.Blocks (1 + j.val) (2 + i.val) (3 + h) = 1
        ∨ (floorPuzzle g room h d diff rng).1.Blocks (1 + j.val) (2 + i.val) (3 + h)
            = d)
  ∧ ((wipeChunk room).changed = room.changed + 1)
  ∧ ((roomCopy fro room h).changed = room.changed + 1)
  ∧ ((deepCopy fro room).changed = room.changed + 1)
  ∧ ((setExits room h w e n s').changed = room.changed + 1)
  ∧ ((theFloorIsLava room h).changed = room.changed + 1)
  ∧ ((noFloor room h).changed = room.changed + 1)
  ∧ ((makePillar room).changed = room.changed + 1) :=
  ⟨floorPuzzle_changed g room h d diff rng,
    fun j i' => floorPuzzle_cov g room h d diff rng j.val i'.val j.isLt i'.isLt,
    rfl, rfl, rfl, rfl, rfl, rfl, rfl⟩

end Mailcraft


